import Mathlib

/-!
Shallow embedding of the conda environment reconciler in
src/gemini-12/batch_generate_yamls_with_condacheck.py.

Python strings are modeled as Lean `String`; where the Python code walks a
string character by character (regex search, split, strip) we work on
`String.data : List Char` with structurally recursive functions, so that
every definition reduces inside the kernel.  The regex character class
`\w` is modeled as ASCII alphanumerics plus the underscore, and `strip`
as trimming `Char.isWhitespace` characters, which agrees with the Python
semantics on all ASCII inputs handled by the script.
-/

namespace CondaCheck

/-- Model of the character class `\w` (ASCII fragment). -/
def isWordChar (c : Char) : Bool := c.isAlphanum || c = '_'

/-- Model of the character class `[0-9a-f]`. -/
def isLowerHex (c : Char) : Bool := c.isDigit || (decide ('a' ≤ c) && decide (c ≤ 'f'))

/-- Length of the maximal prefix of lowercase-hex characters. -/
def hexRun : List Char → Nat
  | [] => 0
  | c :: cs => if isLowerHex c then hexRun cs + 1 else 0

/-- Matches `\w*h[0-9a-f]{7,}` starting at the head of the list: after some
word characters there is an `h` followed by at least seven hex digits. -/
def matchHashAfterEq : List Char → Bool
  | [] => false
  | c :: cs =>
      (c == 'h' && decide (7 ≤ hexRun cs)) || (isWordChar c && matchHashAfterEq cs)

/-- Matches `\w*_\d+` against the whole list (used after one mandatory word
character): the list is word characters, then an underscore, then one or
more digits running to the end. -/
def matchWUDstar : List Char → Bool
  | [] => false
  | c :: cs =>
      (c == '_' && !cs.isEmpty && cs.all (·.isDigit)) || (isWordChar c && matchWUDstar cs)

/-- Matches `\w+_\d+` against the whole list. -/
def matchWUDplus : List Char → Bool
  | [] => false
  | c :: cs => isWordChar c && matchWUDstar cs

/-- Model of `BUILD_STRING_RE.search` for the pattern
`=\w*h[0-9a-f]{7,}|=\w+_\d+$|=main$` (line 34 of the script): an unanchored
search that succeeds iff some position starts a match of one of the three
alternatives. -/
def buildStringSearch : List Char → Bool
  | [] => false
  | c :: cs =>
      (c == '=' && (matchHashAfterEq cs || matchWUDplus cs || cs == ['m', 'a', 'i', 'n']))
        || buildStringSearch cs

/-- `re.search(BUILD_STRING_RE, s)` is truthy. -/
def hasBuildString (s : String) : Bool := buildStringSearch s.data

/-- `FILTER_OUT_PACKAGES` (lines 27-32), the IgnoreSet. -/
def FILTER_OUT_PACKAGES : List String :=
  ["_libgcc_mutex", "_openmp_mutex", "bzip2", "ca-certificates",
   "ld_impl_linux-64", "libffi", "libgcc-ng", "libgomp", "libstdcxx-ng",
   "libuuid", "ncurses", "openssl", "readline", "sqlite", "tk", "tzdata",
   "xz", "zlib", "certifi", "setuptools", "pip", "wheel", "six", "zipp"]

/-- `HISTORY_LENGTH_THRESHOLD` (line 33). -/
def HISTORY_LENGTH_THRESHOLD : Nat := 50

/-- Python `str.strip` on the character list (both ends). -/
def trimChars (l : List Char) : List Char :=
  ((l.dropWhile Char.isWhitespace).reverse.dropWhile Char.isWhitespace).reverse

/-- `s.split('=')[0].strip()`: the (stripped) prefix before the first `=`. -/
def firstEqField (s : String) : String :=
  String.mk (trimChars (s.data.takeWhile (· ≠ '=')))

/-- `s.split('=<>')[0].strip()`: Python splits on the literal three-character
separator `=<>`, so this is the (stripped) prefix before the first occurrence
of the substring `=<>` - the whole string when that substring is absent. -/
def takeBeforeAngle : List Char → List Char
  | [] => []
  | c :: cs =>
      if c == '=' && cs.take 2 == ['<', '>'] then [] else c :: takeBeforeAngle cs

/-- See `takeBeforeAngle`; this is the dedup key of lines 201 and 207. -/
def splitAngleField (s : String) : String :=
  String.mk (trimChars (takeBeforeAngle s.data))

/-- A single-quote character, used in the reason strings of the script. -/
def sq : String := String.mk [Char.ofNat 39]

/-- One element of a parsed history `dependencies` list: a plain string, the
nested pip mapping, or any other (non-string) YAML value, represented
opaquely by a tag. -/
inductive Entry
  | s (v : String)
  | pipMap (pkgs : List String)
  | other (tag : Nat)
deriving DecidableEq, Repr

/-- Result of `yaml.safe_load` on the history output as seen by
`is_history_output_good`: either a mapping with a list-valued
`dependencies` key, or anything else (falsy value, missing key, non-list
dependencies), which the function treats uniformly as invalid. -/
inductive HistData
  | invalid
  | valid (deps : List Entry)
deriving DecidableEq, Repr

/-- The dependencies of a history, empty for invalid data
(`hist_data.get('dependencies', [])`, line 194). -/
def histDeps : HistData → List Entry
  | .invalid => []
  | .valid deps => deps

/-- The reason string of the length check (line 93). -/
def countReason (n : Nat) : String :=
  "Dependency count (" ++ toString n ++ ") > threshold ("
    ++ toString HISTORY_LENGTH_THRESHOLD ++ ")"

/-- The per-entry loop of `is_history_output_good` (lines 94-99): non-string
entries are skipped; a string entry fails on a build-string match or on a
package name in `FILTER_OUT_PACKAGES`. -/
def checkEntries : List Entry → Bool × String
  | [] => (true, "Clean")
  | Entry.s d :: rest =>
      if hasBuildString d then
        (false, "Found build string in " ++ sq ++ d ++ sq)
      else if firstEqField d ∈ FILTER_OUT_PACKAGES then
        (false, "Found low-level package " ++ sq ++ firstEqField d ++ sq)
      else checkEntries rest
  | _ :: rest => checkEntries rest

/-- `is_history_output_good` (lines 88-99). -/
def is_history_output_good : HistData → Bool × String
  | .invalid => (false, "Invalid history format")
  | .valid deps =>
      if HISTORY_LENGTH_THRESHOLD < deps.length then
        (false, countReason deps.length)
      else checkEntries deps

/-- Split a character list at newline characters (model of
`str.splitlines`; the script strips each line afterwards, which also
removes carriage returns). -/
def splitNL : List Char → List (List Char)
  | [] => [[]]
  | c :: cs =>
      let r := splitNL cs
      if c == '\n' then [] :: r
      else
        match r with
        | [] => [[c]]
        | h :: t => (c :: h) :: t

/-- Python `line.split('=')` on a character list. -/
def splitEq : List Char → List (List Char)
  | [] => [[]]
  | c :: cs =>
      let r := splitEq cs
      if c == '=' then [] :: r
      else
        match r with
        | [] => [[c]]
        | h :: t => (c :: h) :: t

/-- `'='.join(parts)`. -/
def joinEq : List (List Char) → List Char
  | [] => []
  | [p] => p
  | p :: ps => p ++ '=' :: joinEq ps

/-- The loop body of `parse_conda_list_export` (lines 78-85): strip the
line, skip blanks and comments, split on `=`; with at least two fields the
emitted pair is `name` joined with `parts[-2]` (note: for a two-field line
`parts[-2]` is the name itself); a single field is kept bare. -/
def parse_line (acc : List String) (lraw : List Char) : List String :=
  let line := trimChars lraw
  if line.isEmpty then acc
  else if line.headD ' ' == '#' then acc
  else
    let parts := splitEq line
    if 2 ≤ parts.length then
      let package_name :=
        if 2 < parts.length then joinEq (parts.take (parts.length - 2))
        else parts.headD []
      let version := (parts.drop (parts.length - 2)).headD []
      acc ++ [String.mk (package_name ++ '=' :: version)]
    else if parts.length == 1 then acc ++ [String.mk (parts.headD [])]
    else acc

/-- `parse_conda_list_export` (lines 75-86). -/
def parse_conda_list_export (export_output : String) : List String :=
  (splitNL (trimChars export_output.data)).foldl parse_line []

/-- After `python` and `\s*`, one of the comparators `=|<|>|>=|<=|~=`
must match (only its first character decides success). -/
def pythonCompAfter : List Char → Bool
  | [] => false
  | c :: cs =>
      if c.isWhitespace then pythonCompAfter cs
      else c == '=' || c == '<' || c == '>' || (c == '~' && cs.headD ' ' == '=')

/-- The python-spec test of line 196:
`dep == 'python' or re.match(r"^python\s*(=|<|>|>=|<=|~=)", dep)`. -/
def isPythonSpec (v : String) : Bool :=
  v.data == "python".data
    || (v.data.take 6 == "python".data && pythonCompAfter (v.data.drop 6))

/-- First string entry recognized as the python spec (lines 195-197). -/
def findPythonSpec : List Entry → Option String
  | [] => none
  | Entry.s v :: rest => if isPythonSpec v then some v else findPythonSpec rest
  | _ :: rest => findPythonSpec rest

/-- `hist_dep_names` (line 201): dedup keys of the string entries. -/
def histStringNames (deps : List Entry) : List String :=
  deps.filterMap fun e =>
    match e with
    | Entry.s d => some (splitAngleField d)
    | _ => none

/-- The per-entry loop of the history path (lines 205-211): a string entry
is dropped when its dedup key is one of the four special names, the pip
mapping is dropped, any other entry is kept unchanged. -/
def histLoop : List Entry → List Entry
  | [] => []
  | Entry.s d :: rest =>
      if splitAngleField d ∈ (["python", "pip", "setuptools", "wheel"] : List String) then
        histLoop rest
      else Entry.s d :: histLoop rest
  | Entry.pipMap _ :: rest => histLoop rest
  | e :: rest => e :: histLoop rest

/-- The `new_deps` built on the history path (lines 193-212): the python
spec first when found, then a bare `pip`, `setuptools`, `wheel` for each
name absent from `hist_dep_names`, then the surviving history entries,
then the pip mapping when present. -/
def build_from_history (deps : List Entry) (pip_section : Option (List String)) :
    List Entry :=
  let names := histStringNames deps
  let base :=
    (match findPythonSpec deps with
      | some p => [Entry.s p]
      | none => [])
    ++ (if "pip" ∈ names then [] else [Entry.s "pip"])
    ++ (if "setuptools" ∈ names then [] else [Entry.s "setuptools"])
    ++ (if "wheel" ∈ names then [] else [Entry.s "wheel"])
    ++ histLoop deps
  match pip_section with
  | some ps => base ++ [Entry.pipMap ps]
  | none => base

/-- The per-entry loop of the fallback path (lines 232-236), returning the
kept entries in order, the kept count, the filtered count and the filtered
entries in order. -/
def fallbackLoop : List String → List Entry × Nat × Nat × List String
  | [] => ([], 0, 0, [])
  | d :: rest =>
      let r := fallbackLoop rest
      let name := firstEqField d
      if name ∈ (["python", "pip", "setuptools", "wheel"] : List String) then r
      else if name ∈ FILTER_OUT_PACKAGES then
        (r.1, r.2.1, r.2.2.1 + 1, d :: r.2.2.2)
      else (Entry.s d :: r.1, r.2.1 + 1, r.2.2.1, r.2.2.2)

/-- Result of the fallback construction. -/
structure FallbackBuild where
  deps : List Entry
  kept : Nat
  filtered : Nat
  filteredList : List String
deriving DecidableEq, Repr

/-- The `new_deps` built on the fallback path (lines 225-241): the python
spec (the first entry with `startswith('python=')`) first when found, then the
unconditional `pip`, `setuptools`, `wheel`, then the kept entries, then the
pip mapping when present. -/
def build_from_fallback (listDeps : List String) (pip_section : Option (List String)) :
    FallbackBuild :=
  let r := fallbackLoop listDeps
  let base :=
    (match listDeps.find? (fun d => d.data.take 7 == "python=".data) with
      | some p => [Entry.s p]
      | none => [])
    ++ [Entry.s "pip", Entry.s "setuptools", Entry.s "wheel"]
    ++ r.1
  let deps :=
    match pip_section with
    | some ps => base ++ [Entry.pipMap ps]
    | none => base
  ⟨deps, r.2.1, r.2.2.1, r.2.2.2⟩

/-- The final manifest (`final_yaml_data`, lines 214 and 243). -/
structure Manifest where
  name : String
  channels : List String
  dependencies : List Entry
deriving DecidableEq, Repr

/-- The outside-world outcomes consumed by one `process_environment` call.
Each external interaction is given by its result at the call boundary: a
raised Python exception is an `Except.error` carrying the message text.
`histData` is the result of `yaml.safe_load` on the raw history output;
`pipOutcome` is the combined result of the best-effort pip block (lines
180-184): an exception, or the value of `get_pip_deps_from_export`. -/
structure EnvInputs where
  envName : String
  histCmd : Except String String
  histData : Except String HistData
  pipOutcome : Except String (Option (List String))
  listCmd : Except String String

/-- The observable outcome of `process_environment`: the summary-row fields
(lines 158-161, the code joins `notes` with a semicolon into one cell), the
archived raw outputs as (kind, verbatim content) pairs in write order, and
the manifest written for the environment, when any. -/
structure ProcResult where
  envName : String
  method : String
  status : String
  archives : List (String × String)
  manifest : Option Manifest
  notes : List String
  kept : Nat
  filtered : Nat
deriving DecidableEq, Repr

/-- `process_environment` (lines 155-258) from the history command onward
(the conda version probe of lines 164-171 only fills a report column and is
omitted).  A history command failure returns before any archive is written;
a history parse failure returns after the history archive is written; a
clean history takes the history path; otherwise the fallback path runs the
list command, archives its raw output, and fails when the parsed list is
empty (the `ValueError` of line 224).  The final manifest write is modeled
as succeeding, so `status` is `OK` exactly when a manifest was produced. -/
def process_environment (useOriginalName : Bool) (i : EnvInputs) : ProcResult :=
  match i.histCmd with
  | .error e =>
      { envName := i.envName, method := "N/A", status := "ERROR", archives := [],
        manifest := none, notes := ["Failed to get/parse history: " ++ e],
        kept := 0, filtered := 0 }
  | .ok histOut =>
    match i.histData with
    | .error e =>
        { envName := i.envName, method := "N/A", status := "ERROR",
          archives := [("history", histOut)], manifest := none,
          notes := ["Failed to get/parse history: " ++ e], kept := 0, filtered := 0 }
    | .ok hist =>
      let pipSection := match i.pipOutcome with
        | .error _ => none
        | .ok o => o
      let notes0 : List String := match i.pipOutcome with
        | .error _ => ["Pip processing failed"]
        | .ok _ => []
      if (is_history_output_good hist).1 then
        let deps := build_from_history (histDeps hist) pipSection
        let nm := if useOriginalName then i.envName else "cf_hist_" ++ i.envName
        { envName := i.envName, method := "History", status := "OK",
          archives := [("history", histOut)],
          manifest := some ⟨nm, ["conda-forge"], deps⟩,
          notes := notes0, kept := 0, filtered := 0 }
      else
        match i.listCmd with
        | .error e =>
            { envName := i.envName, method := "Fallback", status := "ERROR",
              archives := [("history", histOut)], manifest := none,
              notes := notes0 ++ ["ERROR processing with fallback: " ++ e],
              kept := 0, filtered := 0 }
        | .ok lout =>
            let listDeps := parse_conda_list_export lout
            if listDeps.isEmpty then
              { envName := i.envName, method := "Fallback", status := "ERROR",
                archives := [("history", histOut), ("list_export", lout)],
                manifest := none,
                notes := notes0
                  ++ ["ERROR processing with fallback: Parsed dependency list is empty."],
                kept := 0, filtered := 0 }
            else
              let fb := build_from_fallback listDeps pipSection
              let nm := if useOriginalName then i.envName else "cf_filt_" ++ i.envName
              { envName := i.envName, method := "Fallback", status := "OK",
                archives := [("history", histOut), ("list_export", lout)],
                manifest := some ⟨nm, ["conda-forge"], fb.deps⟩,
                notes := notes0 ++ (if fb.kept = 0 then ["Kept 0 packages"] else []),
                kept := fb.kept, filtered := fb.filtered }

/-- The per-environment loop of `main` (lines 311-329): every discovered
environment is processed in order and contributes one summary row; the
try/except around `process_environment` is what makes the loop total, which
the embedding reflects by `process_environment` being a total function. -/
def runBatch (useOriginalName : Bool) (envs : List EnvInputs) : List ProcResult :=
  envs.map (process_environment useOriginalName)

/-- Inputs of Scenario A: a clean history with a versioned python spec. -/
def scenarioAInputs : EnvInputs :=
  ⟨"env_a", .ok "raw_history",
    .ok (.valid [.s "python=3.10", .s "numpy=1.24"]), .ok none, .ok ""⟩

/-- C1: the spec expects the clean history `["python=3.10", "numpy=1.24"]`
to yield the dependency sequence `["python=3.10", "pip", "setuptools",
"wheel", "numpy=1.24"]` with each original entry exactly once.  The code
classifies this history clean and takes the history path (method tag
`History`), but emits `python=3.10` twice: the skip test of line 208
compares `dep.split('=<>')[0]` - the prefix before the literal substring
`=<>`, which for `python=3.10` is the whole spec - against the bare name
`python`, so the already-placed python spec is appended again. -/
theorem scenarioA_clean_history_duplicates_python :
    is_history_output_good (.valid [.s "python=3.10", .s "numpy=1.24"]) = (true, "Clean")
    ∧ (process_environment true scenarioAInputs).method = "History"
    ∧ (process_environment true scenarioAInputs).manifest =
        some ⟨"env_a", ["conda-forge"],
          [.s "python=3.10", .s "pip", .s "setuptools", .s "wheel",
           .s "python=3.10", .s "numpy=1.24"]⟩ := by
  decide

/-- C2: the spec expects that when a clean history already names pip, the
history entry is kept and no bare `pip` is appended, so that pip occurs
exactly once.  The history `["pip>=21"]` is classified clean (its
`split('=')[0]` name is `pip>`, not in the ignore set), yet the output
contains both an appended bare `pip` and the kept `pip>=21`: the
presence test of line 202 uses the `split('=<>')` key, which never equals
`pip` for a versioned spec.  A history naming `pip` bare is never
classified clean at all, because `pip` is in `FILTER_OUT_PACKAGES`. -/
theorem clean_history_pip_entry_duplicated :
    is_history_output_good (.valid [.s "pip>=21"]) = (true, "Clean")
    ∧ build_from_history [.s "pip>=21"] none =
        [.s "pip", .s "setuptools", .s "wheel", .s "pip>=21"]
    ∧ (is_history_output_good (.valid [.s "pip"])).1 = false := by
  decide

/-- C3: the spec expects a line with exactly two `=`-separated segments to
parse to `name=version`.  For such a line the code sets
`version = parts[-2]`, which with two segments is `parts[0]` - the name -
so `python=3.10` parses to `python=python`.  Lines with three segments and
bare-name lines behave as claimed, and blank or `#` lines are ignored. -/
theorem two_field_line_parses_to_name_name :
    parse_conda_list_export "python=3.10" = ["python=python"]
    ∧ parse_conda_list_export "numpy=1.24=py39h1234567_0\nrequests\n# comment\n" =
        ["numpy=1.24", "requests"] := by
  decide

/-- Inputs of the C4 counterexample: an invalid history forces the fallback
path; the flat export holds one package and the pip section holds `six`. -/
def ignoreSetInputs : EnvInputs :=
  ⟨"env_c4", .ok "h", .ok .invalid, .ok (some ["six"]), .ok "numpy=1.24=py_0"⟩

/-- C4 counterexample: the produced fallback manifest contains the conda
entry `pip` - whose package name `pip` is in `FILTER_OUT_PACKAGES` - and
the pip sub-list entry `six`, also an ignore-set member, so ignore-set
members are not excluded unconditionally from the output. -/
theorem fallback_manifest_contains_ignoreset_pip :
    (process_environment true ignoreSetInputs).manifest =
        some ⟨"env_c4", ["conda-forge"],
          [.s "pip", .s "setuptools", .s "wheel", .s "numpy=1.24", .pipMap ["six"]]⟩
    ∧ firstEqField "pip" ∈ FILTER_OUT_PACKAGES
    ∧ "six" ∈ FILTER_OUT_PACKAGES := by
  decide

theorem str_data_append (a b : String) : (a ++ b).data = a.data ++ b.data := rfl

theorem checkEntries_clean (deps : List Entry)
    (h : ∀ s, Entry.s s ∈ deps →
        hasBuildString s = false ∧ firstEqField s ∉ FILTER_OUT_PACKAGES) :
    checkEntries deps = (true, "Clean") := by
  induction deps with
  | nil => rfl
  | cons e rest ih =>
    have ih := ih fun s hs => h s (List.mem_cons_of_mem _ hs)
    cases e with
    | s v =>
      have hv := h v (List.mem_cons_self _ _)
      simp [checkEntries, hv.1, hv.2, ih]
    | pipMap ps => simpa [checkEntries] using ih
    | other t => simpa [checkEntries] using ih

theorem checkEntries_bad (deps : List Entry)
    (h : (checkEntries deps).1 = false) :
    ∃ s, Entry.s s ∈ deps
      ∧ (hasBuildString s = true ∨ firstEqField s ∈ FILTER_OUT_PACKAGES) := by
  induction deps with
  | nil => simp [checkEntries] at h
  | cons e rest ih =>
    cases e with
    | s v =>
      by_cases hb : hasBuildString v
      · exact ⟨v, List.mem_cons_self _ _, Or.inl hb⟩
      · by_cases hf : firstEqField v ∈ FILTER_OUT_PACKAGES
        · exact ⟨v, List.mem_cons_self _ _, Or.inr hf⟩
        · simp only [checkEntries, hb, Bool.false_eq_true, if_false, hf, if_neg] at h
          obtain ⟨s, hs, hbad⟩ := ih (by simpa [hf] using h)
          exact ⟨s, List.mem_cons_of_mem _ hs, hbad⟩
    | pipMap ps =>
      obtain ⟨s, hs, hbad⟩ := ih (by simpa [checkEntries] using h)
      exact ⟨s, List.mem_cons_of_mem _ hs, hbad⟩
    | other t =>
      obtain ⟨s, hs, hbad⟩ := ih (by simpa [checkEntries] using h)
      exact ⟨s, List.mem_cons_of_mem _ hs, hbad⟩

/-- C5: a history whose dependency list has at most the threshold number of
entries, in which no string entry matches the build-string pattern and no
string entry has its package name in the ignore set, is classified clean
with reason `Clean`. -/
theorem clean_history_classified_clean (deps : List Entry)
    (hlen : deps.length ≤ HISTORY_LENGTH_THRESHOLD)
    (h : ∀ s, Entry.s s ∈ deps →
        hasBuildString s = false ∧ firstEqField s ∉ FILTER_OUT_PACKAGES) :
    is_history_output_good (.valid deps) = (true, "Clean") := by
  simp only [is_history_output_good]
  rw [if_neg (by omega)]
  exact checkEntries_clean deps h

/-- Witness for C5 at a concrete clean history. -/
theorem clean_history_classified_clean_witness :
    is_history_output_good (.valid [.s "numpy=1.24", .pipMap ["requests"]])
      = (true, "Clean") := by
  apply clean_history_classified_clean
  · decide
  · intro s hs
    simp only [List.mem_cons, List.not_mem_nil, or_false] at hs
    rcases hs with hs | hs
    · cases hs; decide
    · cases hs

/-- C6: a history with more than the threshold (50) entries is classified
not clean whatever the entries are, and the reason string is the count
message, which contains the decimal rendering of the actual dependency
count and of the threshold as substrings. -/
theorem over_threshold_history_not_clean (deps : List Entry)
    (h : HISTORY_LENGTH_THRESHOLD < deps.length) :
    is_history_output_good (.valid deps) = (false, countReason deps.length)
    ∧ (toString deps.length).data <:+: (countReason deps.length).data
    ∧ (toString HISTORY_LENGTH_THRESHOLD).data <:+: (countReason deps.length).data := by
  refine ⟨?_, ?_, ?_⟩
  · simp only [is_history_output_good]
    rw [if_pos h]
  · refine ⟨"Dependency count (".data,
      (") > threshold (" ++ toString HISTORY_LENGTH_THRESHOLD ++ ")").data, ?_⟩
    simp [countReason, str_data_append]
  · refine ⟨("Dependency count (" ++ toString deps.length ++ ") > threshold (").data,
      ")".data, ?_⟩
    simp [countReason, str_data_append]

/-- Witness for C6 at a 51-entry history. -/
theorem over_threshold_history_not_clean_witness :
    is_history_output_good (.valid (List.replicate 51 (Entry.other 0)))
      = (false, countReason 51) := by
  simpa using
    (over_threshold_history_not_clean (List.replicate 51 (Entry.other 0))
      (by simp [HISTORY_LENGTH_THRESHOLD])).1

/-- C10: in `is_history_output_good`, non-string entries are skipped by the
per-entry checks, so a not-clean result always comes from the length test
or from some string entry failing a check; yet non-string entries do count
toward the 50-entry threshold, as the 51 nested pip mappings show. -/
theorem nonstring_entries_skipped_but_counted :
    (∀ deps : List Entry, (is_history_output_good (.valid deps)).1 = false →
        HISTORY_LENGTH_THRESHOLD < deps.length
        ∨ ∃ s, Entry.s s ∈ deps
            ∧ (hasBuildString s = true ∨ firstEqField s ∈ FILTER_OUT_PACKAGES))
    ∧ is_history_output_good (.valid (List.replicate 51 (Entry.pipMap [])))
        = (false, countReason 51) := by
  constructor
  · intro deps h
    by_cases hl : HISTORY_LENGTH_THRESHOLD < deps.length
    · exact Or.inl hl
    · refine Or.inr (checkEntries_bad deps ?_)
      simpa [is_history_output_good, if_neg hl] using h
  · have h := (over_threshold_history_not_clean
      (List.replicate 51 (Entry.pipMap [])) (by simp [HISTORY_LENGTH_THRESHOLD])).1
    simpa using h

/-- Witness for C10: the history `[six]` is not clean, and the theorem
locates the failure in a string entry. -/
theorem nonstring_entries_skipped_but_counted_witness :
    HISTORY_LENGTH_THRESHOLD < ([Entry.s "six"] : List Entry).length
    ∨ ∃ s, Entry.s s ∈ ([Entry.s "six"] : List Entry)
        ∧ (hasBuildString s = true ∨ firstEqField s ∈ FILTER_OUT_PACKAGES) :=
  nonstring_entries_skipped_but_counted.1 [Entry.s "six"] (by decide)

theorem fallbackLoop_kept_not_filtered (listDeps : List String) (s : String)
    (hmem : Entry.s s ∈ (fallbackLoop listDeps).1) :
    firstEqField s ∉ FILTER_OUT_PACKAGES := by
  induction listDeps with
  | nil => simp [fallbackLoop] at hmem
  | cons d rest ih =>
    by_cases h1 : firstEqField d ∈ (["python", "pip", "setuptools", "wheel"] : List String)
    · rw [fallbackLoop, if_pos h1] at hmem
      exact ih hmem
    · by_cases h2 : firstEqField d ∈ FILTER_OUT_PACKAGES
      · rw [fallbackLoop, if_neg h1, if_pos h2] at hmem
        exact ih hmem
      · rw [fallbackLoop, if_neg h1, if_neg h2] at hmem
        rcases List.mem_cons.mp hmem with h | h
        · cases h; exact h2
        · exact ih h

theorem takeWhile_python_head (l : List Char) :
    ('p' :: 'y' :: 't' :: 'h' :: 'o' :: 'n' :: '=' :: l).takeWhile (· ≠ '=') =
      ['p', 'y', 't', 'h', 'o', 'n'] := by
  simp [List.takeWhile_cons]

theorem firstEqField_of_python_start (p : String)
    (h : p.data.take 7 = "python=".data) : firstEqField p = "python" := by
  have hdecomp : p.data = 'p' :: 'y' :: 't' :: 'h' :: 'o' :: 'n' :: '=' :: p.data.drop 7 := by
    conv_lhs => rw [← List.take_append_drop 7 p.data]
    rw [h]
    rfl
  unfold firstEqField
  rw [hdecomp, takeWhile_python_head]
  rfl

/-- C4 amended: on the fallback path, ignore-set filtering applies exactly
to the conda entries taken from the flat-export list: any string entry of a
fallback manifest dependency list whose package name is in
`FILTER_OUT_PACKAGES` is one of the unconditionally injected `pip`,
`setuptools`, `wheel` entries.  (The python spec placed first has package
name `python`, which is not in the set, and pip sub-list entries live in
the nested mapping, which this claim does not constrain.) -/
theorem fallback_kept_entries_avoid_ignoreset
    (listDeps : List String) (pip_section : Option (List String)) (s : String)
    (hmem : Entry.s s ∈ (build_from_fallback listDeps pip_section).deps)
    (hfil : firstEqField s ∈ FILTER_OUT_PACKAGES) :
    s ∈ (["pip", "setuptools", "wheel"] : List String) := by
  have hbase : Entry.s s ∈
      (match List.find? (fun d => d.data.take 7 == "python=".data) listDeps with
        | some p => [Entry.s p]
        | none => ([] : List Entry))
      ++ ([Entry.s "pip", Entry.s "setuptools", Entry.s "wheel"]
          ++ (fallbackLoop listDeps).1) := by
    cases pip_section with
    | none => simpa [build_from_fallback, List.append_assoc] using hmem
    | some ps =>
      have h := hmem
      simp only [build_from_fallback, List.append_assoc, List.mem_append,
        List.mem_singleton] at h ⊢
      rcases h with h | h | h | h
      · exact Or.inl h
      · exact Or.inr (Or.inl h)
      · exact Or.inr (Or.inr h)
      · exact absurd h (by simp)
  rcases List.mem_append.mp hbase with hpy | hrest
  · rcases hfind : List.find? (fun d => d.data.take 7 == "python=".data) listDeps with _ | p
    · rw [hfind] at hpy; simp at hpy
    · rw [hfind] at hpy
      injection List.mem_singleton.mp hpy with hsp
      subst hsp
      have hpred := List.find?_some hfind
      have htake : s.data.take 7 = "python=".data := by
        simpa using hpred
      rw [firstEqField_of_python_start s htake] at hfil
      exact absurd hfil (by decide)
  · rcases List.mem_append.mp hrest with htrio | hloop
    · rcases List.mem_cons.mp htrio with h | h
      · cases h; decide
      · rcases List.mem_cons.mp h with h | h
        · cases h; decide
        · rcases List.mem_cons.mp h with h | h
          · cases h; decide
          · simp at h
    · exact absurd hfil (fallbackLoop_kept_not_filtered listDeps s hloop)

/-- Witness for the C4 amended theorem: the flat-export entry `pip=23.0`
is dropped, so the only pip-named entry of the output is the injected one. -/
theorem fallback_kept_entries_avoid_ignoreset_witness :
    "pip" ∈ (["pip", "setuptools", "wheel"] : List String) :=
  fallback_kept_entries_avoid_ignoreset ["pip=23.0"] none "pip" (by decide) (by decide)

theorem parse_line_skip (acc : List String) (l : List Char)
    (h : trimChars l = [] ∨ (trimChars l).headD ' ' = '#') :
    parse_line acc l = acc := by
  rcases h with h | h
  · simp [parse_line, h]
  · by_cases he : (trimChars l).isEmpty
    · simp [parse_line, he]
    · simp only [parse_line]
      rw [if_neg (by simpa using he), if_pos (by simpa using h)]

theorem foldl_parse_line_skip (ls : List (List Char)) (acc : List String)
    (h : ∀ l ∈ ls, trimChars l = [] ∨ (trimChars l).headD ' ' = '#') :
    ls.foldl parse_line acc = acc := by
  induction ls generalizing acc with
  | nil => rfl
  | cons l rest ih =>
    rw [List.foldl_cons, parse_line_skip acc l (h l (List.mem_cons_self _ _))]
    exact ih acc fun x hx => h x (List.mem_cons_of_mem _ hx)

theorem parse_all_comments_empty (lout : String)
    (h : ∀ l ∈ splitNL (trimChars lout.data),
        trimChars l = [] ∨ (trimChars l).headD ' ' = '#') :
    parse_conda_list_export lout = [] :=
  foldl_parse_line_skip _ [] h

/-- C7: when the fallback path is taken and every line of the flat export
is blank or a comment, the parsed dependency list is empty, the
`ValueError` of line 224 is raised and caught, and the environment fails:
no manifest is produced, the status is `ERROR`, and the declared error
message is recorded in the notes. -/
theorem empty_fallback_export_fails_environment
    (u : Bool) (nm hraw : String) (d : HistData)
    (po : Except String (Option (List String))) (lout : String)
    (hbad : (is_history_output_good d).1 = false)
    (hlines : ∀ l ∈ splitNL (trimChars lout.data),
        trimChars l = [] ∨ (trimChars l).headD ' ' = '#') :
    (process_environment u ⟨nm, .ok hraw, .ok d, po, .ok lout⟩).manifest = none
    ∧ (process_environment u ⟨nm, .ok hraw, .ok d, po, .ok lout⟩).status = "ERROR"
    ∧ "ERROR processing with fallback: Parsed dependency list is empty."
        ∈ (process_environment u ⟨nm, .ok hraw, .ok d, po, .ok lout⟩).notes := by
  have hparse : parse_conda_list_export lout = [] := parse_all_comments_empty lout hlines
  cases po with
  | error e => simp [process_environment, hbad, hparse]
  | ok o => simp [process_environment, hbad, hparse]

/-- Witness for C7: a flat export consisting of a comment line and a blank
line fails the environment. -/
theorem empty_fallback_export_fails_environment_witness :
    (process_environment true
        ⟨"e7", .ok "h", .ok (.valid [.s "six"]), .ok none, .ok "# pkgs\n \n"⟩).manifest
      = none
    ∧ (process_environment true
        ⟨"e7", .ok "h", .ok (.valid [.s "six"]), .ok none, .ok "# pkgs\n \n"⟩).status
      = "ERROR"
    ∧ "ERROR processing with fallback: Parsed dependency list is empty."
        ∈ (process_environment true
            ⟨"e7", .ok "h", .ok (.valid [.s "six"]), .ok none, .ok "# pkgs\n \n"⟩).notes :=
  empty_fallback_export_fails_environment true "e7" "h" (.valid [.s "six"])
    (.ok none) "# pkgs\n \n" (by decide) (by decide)

/-- Inputs of the C8 counterexample: a clean history, so the history path
is chosen and the flat list export is never requested. -/
def historyPathInputs : EnvInputs :=
  ⟨"env_c8", .ok "name: x", .ok (.valid [.s "numpy=1.24"]), .ok none, .ok "unused"⟩

/-- C8 counterexample: on the history path the archived raw outputs are
exactly one file of kind `history`; the flat list export is only obtained -
and hence only archived - on the fallback path, so it is false that both
export sources are archived regardless of which path is chosen. -/
theorem history_path_archives_only_history :
    (process_environment true historyPathInputs).method = "History"
    ∧ (process_environment true historyPathInputs).archives.map Prod.fst = ["history"] := by
  decide

/-- C8 amended: the raw history export is archived verbatim whenever the
history command succeeds, on both paths; the flat list export is obtained
and archived verbatim (after the history archive) exactly when the
fallback path is taken and its command succeeds; nothing else is ever
archived. -/
theorem archive_behavior_by_path
    (u : Bool) (nm hraw : String) (hd : Except String HistData)
    (po : Except String (Option (List String))) (lc : Except String String) :
    ("history", hraw) ∈ (process_environment u ⟨nm, .ok hraw, hd, po, lc⟩).archives
    ∧ (∀ d, hd = .ok d → (is_history_output_good d).1 = true →
        (process_environment u ⟨nm, .ok hraw, hd, po, lc⟩).archives = [("history", hraw)])
    ∧ (∀ d lout, hd = .ok d → (is_history_output_good d).1 = false → lc = .ok lout →
        (process_environment u ⟨nm, .ok hraw, hd, po, lc⟩).archives =
          [("history", hraw), ("list_export", lout)]) := by
  refine ⟨?_, ?_, ?_⟩
  · cases hd with
    | error e => simp [process_environment]
    | ok d =>
      by_cases hg : (is_history_output_good d).1
      · cases po <;> simp [process_environment, hg]
      · cases lc with
        | error e => cases po <;> simp [process_environment, hg]
        | ok lout =>
          by_cases hemp : (parse_conda_list_export lout).isEmpty
            <;> cases po <;> simp [process_environment, hg, hemp]
  · intro d hdok hg
    subst hdok
    cases po <;> simp [process_environment, hg]
  · intro d lout hdok hg hlok
    subst hdok
    subst hlok
    by_cases hemp : (parse_conda_list_export lout).isEmpty
      <;> cases po <;> simp [process_environment, hg, hemp]

/-- Witness for the C8 amended theorem: a fallback run archives the
history output and then the list output. -/
theorem archive_behavior_by_path_witness :
    ("history", "name: x")
      ∈ (process_environment true
          ⟨"e8", .ok "name: x", .ok (.valid [.s "six"]), .ok none, .ok "a=1=0"⟩).archives
    ∧ (process_environment true
          ⟨"e8", .ok "name: x", .ok (.valid [.s "six"]), .ok none, .ok "a=1=0"⟩).archives
        = [("history", "name: x"), ("list_export", "a=1=0")] :=
  ⟨(archive_behavior_by_path true "e8" "name: x" (.ok (.valid [.s "six"]))
      (.ok none) (.ok "a=1=0")).1,
   (archive_behavior_by_path true "e8" "name: x" (.ok (.valid [.s "six"]))
      (.ok none) (.ok "a=1=0")).2.2 (.valid [.s "six"]) "a=1=0" rfl (by decide) rfl⟩

theorem pe_envName_eq (u : Bool) (i : EnvInputs) :
    (process_environment u i).envName = i.envName := by
  obtain ⟨nm, hc, hd, po, lc⟩ := i
  cases hc with
  | error e => rfl
  | ok ho =>
    cases hd with
    | error e => rfl
    | ok d =>
      by_cases hg : (is_history_output_good d).1
      · cases po <;> simp [process_environment, hg]
      · cases lc with
        | error e => cases po <;> simp [process_environment, hg]
        | ok lout =>
          by_cases hemp : (parse_conda_list_export lout).isEmpty
            <;> cases po <;> simp [process_environment, hg, hemp]

theorem pe_hist_cmd_error (u : Bool) (i : EnvInputs) (e : String)
    (he : i.histCmd = .error e) :
    (process_environment u i).status = "ERROR"
    ∧ ("Failed to get/parse history: " ++ e) ∈ (process_environment u i).notes := by
  obtain ⟨nm, hc, hd, po, lc⟩ := i
  dsimp only at he
  subst he
  simp [process_environment]

theorem pe_hist_parse_error (u : Bool) (i : EnvInputs) (ho e : String)
    (h1 : i.histCmd = .ok ho) (h2 : i.histData = .error e) :
    (process_environment u i).status = "ERROR"
    ∧ ("Failed to get/parse history: " ++ e) ∈ (process_environment u i).notes := by
  obtain ⟨nm, hc, hd, po, lc⟩ := i
  dsimp only at h1 h2
  subst h1
  subst h2
  simp [process_environment]

theorem pe_fallback_cmd_error (u : Bool) (i : EnvInputs) (ho : String)
    (d : HistData) (e : String)
    (h1 : i.histCmd = .ok ho) (h2 : i.histData = .ok d)
    (hg : (is_history_output_good d).1 = false) (h3 : i.listCmd = .error e) :
    (process_environment u i).status = "ERROR"
    ∧ ("ERROR processing with fallback: " ++ e) ∈ (process_environment u i).notes := by
  obtain ⟨nm, hc, hd, po, lc⟩ := i
  dsimp only at h1 h2 h3
  subst h1
  subst h2
  subst h3
  cases po <;> simp [process_environment, hg]

/-- C9: the batch loop processes every discovered environment in order -
one summary row per environment, carrying its identifier - and a
per-environment failure (history command failure, history parse failure,
or command failure of the chosen fallback source) only marks that row as
`ERROR` with the failure message recorded in its notes; the rows of all
other environments are still produced, so no per-environment failure
aborts the batch. -/
theorem per_environment_failures_recorded_batch_continues
    (u : Bool) (envs : List EnvInputs) (k : Nat) (hk : k < envs.length) :
    (runBatch u envs).length = envs.length
    ∧ (runBatch u envs).get ⟨k, by simpa [runBatch] using hk⟩
        = process_environment u (envs.get ⟨k, hk⟩)
    ∧ (process_environment u (envs.get ⟨k, hk⟩)).envName = (envs.get ⟨k, hk⟩).envName
    ∧ (∀ e, (envs.get ⟨k, hk⟩).histCmd = Except.error e →
        (process_environment u (envs.get ⟨k, hk⟩)).status = "ERROR"
        ∧ ("Failed to get/parse history: " ++ e)
            ∈ (process_environment u (envs.get ⟨k, hk⟩)).notes)
    ∧ (∀ ho e, (envs.get ⟨k, hk⟩).histCmd = Except.ok ho →
        (envs.get ⟨k, hk⟩).histData = Except.error e →
        (process_environment u (envs.get ⟨k, hk⟩)).status = "ERROR"
        ∧ ("Failed to get/parse history: " ++ e)
            ∈ (process_environment u (envs.get ⟨k, hk⟩)).notes)
    ∧ (∀ ho d e, (envs.get ⟨k, hk⟩).histCmd = Except.ok ho →
        (envs.get ⟨k, hk⟩).histData = Except.ok d →
        (is_history_output_good d).1 = false →
        (envs.get ⟨k, hk⟩).listCmd = Except.error e →
        (process_environment u (envs.get ⟨k, hk⟩)).status = "ERROR"
        ∧ ("ERROR processing with fallback: " ++ e)
            ∈ (process_environment u (envs.get ⟨k, hk⟩)).notes) := by
  refine ⟨by simp [runBatch], ?_, pe_envName_eq u _, ?_, ?_, ?_⟩
  · simp [runBatch, List.get_eq_getElem, List.getElem_map]
  · intro e he
    exact pe_hist_cmd_error u _ e he
  · intro ho e h1 h2
    exact pe_hist_parse_error u _ ho e h1 h2
  · intro ho d e h1 h2 hg h3
    exact pe_fallback_cmd_error u _ ho d e h1 h2 hg h3

/-- Demo batch for the C9 witness: the first environment fails at the
history command, the second is processed normally. -/
def demoEnvs : List EnvInputs :=
  [⟨"bad", .error "boom", .ok .invalid, .ok none, .ok ""⟩,
   ⟨"good", .ok "h", .ok (.valid [.s "numpy=1.24"]), .ok none, .ok ""⟩]

/-- Witness for C9: in the demo batch, both rows exist, the failing
environment is recorded with its identifier and message, and the following
environment is still processed. -/
theorem per_environment_failures_recorded_batch_continues_witness :
    (runBatch true demoEnvs).length = demoEnvs.length
    ∧ (process_environment true (demoEnvs.get ⟨0, by decide⟩)).envName = "bad"
    ∧ (process_environment true (demoEnvs.get ⟨0, by decide⟩)).status = "ERROR"
    ∧ ("Failed to get/parse history: boom")
        ∈ (process_environment true (demoEnvs.get ⟨0, by decide⟩)).notes := by
  have h := per_environment_failures_recorded_batch_continues true demoEnvs 0 (by decide)
  have hfail := h.2.2.2.1 "boom" rfl
  exact ⟨h.1, h.2.2.1, hfail.1, hfail.2⟩

end CondaCheck
